import Mathlib

/-!
# Verification of the AvatarsEditor-steam core against its specification

Shallow embedding of the repository's core algorithms:
* `generate_code` — the Steam Guard TOTP-style code generator
  (`src/steam_manager.py` and `src/steam_points_manager.py`,
  `SteamGuardGenerator.generate_code`; the two copies are textually the
  same algorithm, embedded once here),
* `find_best_gift`, `process_account`, `process_accounts_batch`
  (`src/steam_points_manager.py`),
* `print_stats` — the result aggregator (`steam_gifts.py`),
* `get_unique_profile_data` (`src/profile_manager.py`) and
  `get_unique_avatars` (`src/avatar_manager.py`).

Machine integers are modelled as `Nat` with explicit reduction modulo
`2 ^ 32` where the source relies on 32-bit wrap-around; bytes are `Nat`
values below 256.  The network collaborators used by
`process_account` are modelled as oracle functions (`SteamOps`); each
oracle takes the per-account call sequence number as its first argument,
so that "how many times a step is invoked" is observable in the model.
Randomness (`random.choice`) is modelled by an oracle giving the chosen
index for each draw.
-/

/-! ## Byte and 32-bit word utilities -/

/-- Big-endian encoding of `v` into `n` bytes, as done by
`struct.pack` with formats such as `>Q` (n = 8) and the word splitting
inside SHA-1. -/
def natToBE : Nat → Nat → List Nat
  | 0, _ => []
  | k + 1, v => natToBE k (v / 256) ++ [v % 256]

/-- Big-endian reading of a byte list as one integer, as done by
`struct.unpack` with format `>I` on a 4-byte slice. -/
def beWord (bs : List Nat) : Nat :=
  bs.foldl (fun acc b => acc * 256 + b) 0

/-- Left rotation of a 32-bit word (the input is assumed `< 2 ^ 32`). -/
def rotl (x k : Nat) : Nat :=
  (x * 2 ^ k + x / 2 ^ (32 - k)) % 4294967296

/-! ## SHA-1 (`hashlib.sha1`) -/

/-- SHA-1 message padding: `0x80`, zeros to 56 mod 64, then the bit
length as an 8-byte big-endian integer. -/
def sha1Pad (len : Nat) : List Nat :=
  128 :: List.replicate ((119 - len % 64) % 64) 0 ++ natToBE 8 (len * 8)

/-- Split a byte list into 64-byte chunks. -/
def chunk64 (xs : List Nat) : List (List Nat) :=
  if _h : xs.length = 0 then [] else xs.take 64 :: chunk64 (xs.drop 64)
termination_by xs.length
decreasing_by simp [List.length_drop]; omega

/-- Extend the 16-word schedule by `k` further words
(`w[i] = rotl (w[i-3] xor w[i-8] xor w[i-14] xor w[i-16]) 1`). -/
def extendSchedule : Nat → List Nat → List Nat
  | 0, w => w
  | k + 1, w =>
    let n := w.length
    extendSchedule k (w ++
      [rotl (Nat.xor (Nat.xor (w.getD (n - 3) 0) (w.getD (n - 8) 0))
                     (Nat.xor (w.getD (n - 14) 0) (w.getD (n - 16) 0))) 1])

/-- The 80 SHA-1 rounds over the schedule words. -/
def sha1Rounds : Nat → List Nat → Nat × Nat × Nat × Nat × Nat → Nat × Nat × Nat × Nat × Nat
  | _, [], st => st
  | t, wt :: rest, (a, b, c, d, e) =>
    let f :=
      if t < 20 then Nat.lor (Nat.land b c) (Nat.land (Nat.xor b 4294967295) d)
      else if t < 40 then Nat.xor (Nat.xor b c) d
      else if t < 60 then Nat.lor (Nat.lor (Nat.land b c) (Nat.land b d)) (Nat.land c d)
      else Nat.xor (Nat.xor b c) d
    let k :=
      if t < 20 then 1518500249
      else if t < 40 then 1859775393
      else if t < 60 then 2400959708
      else 3395469782
    let temp := (rotl a 5 + f + e + k + wt) % 4294967296
    sha1Rounds (t + 1) rest (temp, a, rotl b 30, c, d)

/-- Process the 64-byte blocks, updating the five 32-bit state words. -/
def sha1Blocks : List (List Nat) → Nat × Nat × Nat × Nat × Nat → Nat × Nat × Nat × Nat × Nat
  | [], st => st
  | blk :: rest, (h0, h1, h2, h3, h4) =>
    let w16 := (List.range 16).map (fun i => beWord ((blk.drop (4 * i)).take 4))
    let w := extendSchedule 64 w16
    match sha1Rounds 0 w (h0, h1, h2, h3, h4) with
    | (a, b, c, d, e) =>
      sha1Blocks rest ((h0 + a) % 4294967296, (h1 + b) % 4294967296,
        (h2 + c) % 4294967296, (h3 + d) % 4294967296, (h4 + e) % 4294967296)

/-- SHA-1 of a byte list, producing the 20-byte digest. -/
def sha1 (msg : List Nat) : List Nat :=
  match sha1Blocks (chunk64 (msg ++ sha1Pad msg.length))
      (1732584193, 4023233417, 2562383102, 271733878, 3285377520) with
  | (h0, h1, h2, h3, h4) =>
    natToBE 4 h0 ++ natToBE 4 h1 ++ natToBE 4 h2 ++ natToBE 4 h3 ++ natToBE 4 h4

/-- HMAC-SHA1 (`hmac.new(key, msg, hashlib.sha1).digest()`), block size
64, inner pad `0x36`, outer pad `0x5c`. -/
def hmacSha1 (key msg : List Nat) : List Nat :=
  let k0 := if 64 < key.length then sha1 key else key
  let kPad := k0 ++ List.replicate (64 - k0.length) 0
  sha1 ((kPad.map (fun b => Nat.xor b 92)) ++
        sha1 ((kPad.map (fun b => Nat.xor b 54)) ++ msg))

/-! ## Python `base64.b64decode` (lenient mode, as called by the source)

`base64.b64decode(s)` with the default `validate=False` first requires
`s` to be pure ASCII (`str.encode('ascii')`), then runs
`binascii.a2b_base64` in non-strict mode: characters outside the base64
alphabet are skipped, `'='` before quad position 2 is ignored, a `'='`
completing a quad ends the decode (ignoring the rest of the input), and
a final quad position other than 0 is an error.  Failure is modelled as
`none` (the Python call raises and the callers catch). -/

/-- Decoding table of the standard base64 alphabet (codepoint to
6-bit value); `none` for characters outside the alphabet. -/
def b64Table (c : Nat) : Option Nat :=
  if 65 ≤ c ∧ c ≤ 90 then some (c - 65)
  else if 97 ≤ c ∧ c ≤ 122 then some (c - 97 + 26)
  else if 48 ≤ c ∧ c ≤ 57 then some (c - 48 + 52)
  else if c = 43 then some 62
  else if c = 47 then some 63
  else none

/-- Non-strict `binascii.a2b_base64` state machine.  State: quad
position (0–3), pending bits, count of pending pad characters, output
accumulator (reversed). -/
def a2b_base64 : List Nat → Nat → Nat → Nat → List Nat → Option (List Nat)
  | [], quadPos, _, _, acc => if quadPos = 0 then some acc.reverse else none
  | c :: rest, quadPos, leftchar, pads, acc =>
    if c = 61 then
      if 2 ≤ quadPos ∧ 4 ≤ quadPos + (pads + 1) then some acc.reverse
      else a2b_base64 rest quadPos leftchar (if 2 ≤ quadPos then pads + 1 else pads) acc
    else
      match b64Table c with
      | none => a2b_base64 rest quadPos leftchar pads acc
      | some d =>
        if quadPos = 0 then a2b_base64 rest 1 d 0 acc
        else if quadPos = 1 then a2b_base64 rest 2 (d % 16) 0 ((leftchar * 4 + d / 16) :: acc)
        else if quadPos = 2 then a2b_base64 rest 3 (d % 4) 0 ((leftchar * 16 + d / 4) :: acc)
        else a2b_base64 rest 0 0 0 ((leftchar * 64 + d) :: acc)

/-- Model of `base64.b64decode` on the codepoints of a Python `str`:
ASCII check, then the non-strict decoder. -/
def b64decode (s : List Nat) : Option (List Nat) :=
  if s.all (fun c => c < 128) then a2b_base64 s 0 0 0 [] else none

/-! ## `SteamGuardGenerator.generate_code` -/

/-- The fixed Steam code alphabet (`steam_chars` in the source). -/
def steam_chars : String := "23456789BCDFGHJKMNPQRTVWXY"

/-- The source's emission loop: 5 iterations of
`code += steam_chars[full_code % len(steam_chars)]; full_code //= len(steam_chars)`. -/
def emitChars : Nat → Nat → List Char
  | 0, _ => []
  | k + 1, v => steam_chars.data.getD (v % 26) ' ' :: emitChars k (v / 26)

/-- The source's padding normalization: append `'='` (codepoint 61)
until the length is a multiple of 4, then take the codepoints. -/
def padSecret (s : String) : List Nat :=
  let cs := s.data.map Char.toNat
  let m := cs.length % 4
  if m = 0 then cs else cs ++ List.replicate (4 - m) 61

/-- The secret-processing stage of `generate_code`: the empty-secret
guard, padding normalization and base64 decoding.  `none` models both
the `if not shared_secret: return ""` path and a decode exception. -/
def secretToBytes (s : String) : Option (List Nat) :=
  if s = "" then none else b64decode (padSecret s)

/-- Embedding of `SteamGuardGenerator.generate_code` from the source, with the
current unix time `now` passed explicitly (the source reads
`time.time()`).  Returns `""` on an absent or undecodable secret. -/
def generate_code (shared_secret : String) (now : Nat) : String :=
  if shared_secret = "" then ""
  else
    match b64decode (padSecret shared_secret) with
    | none => ""
    | some secret =>
      let timestamp := now / 30
      let time_buffer := natToBE 8 timestamp
      let hmac_digest := hmacSha1 secret time_buffer
      let start := Nat.land (hmac_digest.getD 19 0) 15
      let code_bytes := (hmac_digest.drop start).take 4
      let full_code := Nat.land (beWord code_bytes) 2147483647
      String.mk (emitChars 5 full_code)

/-- The reference algorithm exactly as the specification words it,
over already-decoded raw secret bytes: `window = floor(t / 30)` packed
as 8 big-endian bytes, HMAC-SHA1 digest, `offset = digest[19] & 0x0F`,
4 bytes from `offset` read big-endian and masked with `0x7FFFFFFF`,
then 5 characters emitted least-significant first over the 26-character
alphabet.  (Stated from the spec, for comparison with `generate_code`.) -/
def specReferenceCode (secretBytes : List Nat) (t : Nat) : String :=
  let window := t / 30
  let windowBytes := natToBE 8 window
  let digest := hmacSha1 secretBytes windowBytes
  let offset := Nat.land (digest.getD 19 0) 15
  let v := Nat.land (beWord ((digest.drop offset).take 4)) 2147483647
  String.mk (emitChars 5 v)

/-! ## `SteamGift` and `SteamPointsManager.find_best_gift` -/

/-- The `SteamGift` dataclass of `steam_points_manager.py`. -/
structure SteamGift where
  defid : Int
  name : String
  cost : Int
  description : String
deriving DecidableEq

/-- Python's `max(xs, key=lambda x: x.cost)`: fold keeping the current
maximum, replacing it only on a strictly greater key (so the first
maximal element wins). -/
def maxByCost (best : SteamGift) : List SteamGift → SteamGift
  | [] => best
  | g :: gs => maxByCost (if best.cost < g.cost then g else best) gs

/-- Embedding of `SteamPointsManager.find_best_gift`: `None` on an empty list,
otherwise filter the affordable gifts (`cost <= points_balance`) and
return `None` if none remains, else the most expensive affordable one. -/
def find_best_gift (points_balance : Int) (gifts : List SteamGift) : Option SteamGift :=
  if gifts.isEmpty then none
  else
    match gifts.filter (fun g => g.cost ≤ points_balance) with
    | [] => none
    | a :: rest => some (maxByCost a rest)

/-! ## `SteamPointsManager.process_account` and the batch -/

/-- The part of the login response dictionary that
`process_account` reads (`auth_data.get('steamid')`). -/
structure LoginData where
  steamid : Option String
deriving DecidableEq

/-- The per-account result dictionary built by `process_account`. -/
structure AccountResult where
  username : String
  success : Bool
  points_balance : Int
  gift_sent : Option (String × Int)
  error : Option String
deriving DecidableEq

/-- The network collaborators of `SteamPointsManager`, as oracles.
Each oracle's first argument is the per-account call sequence number
(0 for the first call of that step while processing one account), so
the number of calls the code makes is observable.  An `Except.error`
models an exception escaping that step into `process_account`'s
`try`/`except`; `Except.ok` models a normal return (the Python helpers
catch their own network errors and return `None`/`[]`/`False`). -/
structure SteamOps where
  login : Nat → String → String → String → Except String (Option LoginData)
  get_points_balance : Nat → String → Except String (Option Int)
  get_available_gifts : Nat → Except String (List SteamGift)
  send_gift : Nat → Int → String → String → String → String → Except String Bool

/-- The result dictionary as initialized at the top of
`process_account`. -/
def initialResult (username : String) : AccountResult :=
  { username := username, success := false, points_balance := 0,
    gift_sent := none, error := none }

/-- The `try` body of `process_account`, threading the mutable
`result` dictionary; `Except.error (r, e)` is an exception `e` escaping
with the result state `r` built so far. -/
def process_account_body (ops : SteamOps)
    (username password shared_secret recipient_steamid : String)
    (result : AccountResult) : Except (AccountResult × String) AccountResult :=
  match ops.login 0 username password shared_secret with
  | Except.error e => Except.error (result, e)
  | Except.ok none => Except.ok { result with error := some "Ошибка авторизации" }
  | Except.ok (some auth_data) =>
    match auth_data.steamid with
    | none => Except.ok { result with error := some "Не удалось получить Steam ID" }
    | some steamid =>
      if steamid = "" then Except.ok { result with error := some "Не удалось получить Steam ID" }
      else
        match ops.get_points_balance 0 steamid with
        | Except.error e => Except.error (result, e)
        | Except.ok none => Except.ok { result with error := some "Не удалось получить баланс очков" }
        | Except.ok (some points_balance) =>
          let result := { result with points_balance := points_balance }
          if points_balance = 0 then Except.ok { result with error := some "Баланс очков равен 0" }
          else
            match ops.get_available_gifts 0 with
            | Except.error e => Except.error (result, e)
            | Except.ok gifts =>
              if gifts.isEmpty then
                Except.ok { result with error := some "Не удалось получить список подарков" }
              else
                match find_best_gift points_balance gifts with
                | none => Except.ok { result with
                    error := some ("Нет подарков для " ++ toString points_balance ++ " очков") }
                | some best_gift =>
                  match ops.send_gift 0 best_gift.defid recipient_steamid steamid username
                      ("Подарок от " ++ username) with
                  | Except.error e => Except.error (result, e)
                  | Except.ok true => Except.ok { result with
                      success := true, gift_sent := some (best_gift.name, best_gift.cost) }
                  | Except.ok false => Except.ok { result with
                      error := some "Не удалось отправить подарок" }

/-- Embedding of `SteamPointsManager.process_account`: run the body under the
per-account `try`/`except`; an escaping exception is converted into the
result built so far with `error = 'Исключение: ...'`. -/
def process_account (ops : SteamOps)
    (username password shared_secret recipient_steamid : String) : AccountResult :=
  match process_account_body ops username password shared_secret recipient_steamid
      (initialResult username) with
  | Except.ok r => r
  | Except.error (r, e) => { r with error := some ("Исключение: " ++ e) }

/-- Embedding of `process_accounts_batch`: one task per `(username, password,
shared_secret)` tuple; `asyncio.gather` returns the results in the
order of the input tasks, so the batch is an order-preserving map (the
semaphore bounds concurrency but does not affect the per-item values
in this oracle model). -/
def process_accounts_batch (ops : SteamOps)
    (accounts : List (String × String × String)) (recipient_steamid : String) :
    List AccountResult :=
  accounts.map (fun acc => process_account ops acc.1 acc.2.1 acc.2.2 recipient_steamid)

/-! ## The result aggregator (`print_stats` in `steam_gifts.py`) -/

/-- The statistics `print_stats` computes and prints.  The success rate
is `none` when it is not computed (the source only computes and prints
it under `if total > 0`). -/
structure Summary where
  total : Nat
  successful : Nat
  failed : Nat
  total_points : Int
  total_gifts_cost : Int
  success_rate : Option ℚ
deriving DecidableEq

/-- Embedding of `print_stats` from `steam_gifts.py` as a pure aggregator:
`total = len(results)`, `successful` counts `r['success']`,
`failed = total - successful`, plus the points/cost sums; the success
rate `(successful / total) * 100` is only computed when `total > 0`. -/
def print_stats (results : List AccountResult) : Summary :=
  let total := results.length
  let successful := (results.filter (fun r => r.success)).length
  { total := total
    successful := successful
    failed := total - successful
    total_points := (results.map (fun r => r.points_balance)).sum
    total_gifts_cost :=
      ((results.filter (fun r => r.success)).map (fun r => (r.gift_sent.getD ("", 0)).2)).sum
    success_rate :=
      if 0 < total then some ((successful : ℚ) / (total : ℚ) * 100) else none }

/-! ## Parameter assignment (`profile_manager.py`, `avatar_manager.py`) -/

/-- One entry of the list built by
`ProfileManager.get_unique_profile_data`. -/
structure ProfileData where
  profile_name : String
  real_name : String
  about_me : String
deriving DecidableEq, Inhabited

/-- Embedding of `ProfileManager.get_unique_profile_data`: for each `i < count` the
entry uses index `i % len` into each loaded list, or `""` when that
list is empty.  The three lists are passed explicitly (the source loads
them from text files). -/
def get_unique_profile_data (profile_names real_names about_me_texts : List String)
    (count : Nat) : List ProfileData :=
  (List.range count).map (fun i =>
    { profile_name :=
        if profile_names.isEmpty then "" else profile_names.getD (i % profile_names.length) ""
      real_name :=
        if real_names.isEmpty then "" else real_names.getD (i % real_names.length) ""
      about_me :=
        if about_me_texts.isEmpty then "" else about_me_texts.getD (i % about_me_texts.length) "" })

/-- Embedding of `AvatarManager.get_random_avatar`: `""` when no avatars are loaded,
else `random.choice(self.avatars)`; the random draw is modelled by the
oracle index `r` (reduced modulo the length). -/
def get_random_avatar (avatars : List String) (r : Nat) : String :=
  if avatars.isEmpty then "" else avatars.getD (r % avatars.length) ""

/-- Embedding of `AvatarManager.get_unique_avatars`: when more avatars are requested
than exist, return all avatars followed by random picks for the
remainder; otherwise `random.sample(avatars, count)`.  `choice j` is
the randomness oracle for the `j`-th extra pick and `sample` models
`random.sample`. -/
def get_unique_avatars (choice : Nat → Nat) (sample : List String → Nat → List String)
    (avatars : List String) (count : Nat) : List String :=
  if avatars.length < count then
    avatars ++ (List.range (count - avatars.length)).map
      (fun j => get_random_avatar avatars (choice j))
  else
    sample avatars count

/-! ## Concrete values used by the witnesses -/

/-- A concrete gift list for witnesses. -/
def demoGifts : List SteamGift :=
  [{ defid := 1, name := "Sticker", cost := 50, description := "" },
   { defid := 2, name := "Frame", cost := 200, description := "" },
   { defid := 3, name := "Badge", cost := 120, description := "" }]

/-- Oracles in which login fails (returns `None`) on the first two
attempt indices and would succeed from the third on; the remaining
steps always succeed. -/
def retryProbeOps : SteamOps :=
  { login := fun n _ _ _ =>
      if n < 2 then Except.ok none
      else Except.ok (some { steamid := some "76561198000000001" })
    get_points_balance := fun _ _ => Except.ok (some 100)
    get_available_gifts := fun _ => Except.ok demoGifts
    send_gift := fun _ _ _ _ _ _ => Except.ok true }

/-- Oracles that always answer the same as `retryProbeOps` does on call
index 0 (login always fails). -/
def alwaysFailLoginOps : SteamOps :=
  { login := fun _ _ _ _ => Except.ok none
    get_points_balance := fun _ _ => Except.ok (some 100)
    get_available_gifts := fun _ => Except.ok demoGifts
    send_gift := fun _ _ _ _ _ _ => Except.ok true }

/-- Oracles whose login step raises an exception. -/
def throwingLoginOps : SteamOps :=
  { login := fun _ _ _ _ => Except.error "boom"
    get_points_balance := fun _ _ => Except.ok (some 100)
    get_available_gifts := fun _ => Except.ok demoGifts
    send_gift := fun _ _ _ _ _ _ => Except.ok true }

/-- Oracles on which the whole pipeline succeeds. -/
def happyOps : SteamOps :=
  { login := fun _ _ _ _ => Except.ok (some { steamid := some "76561198000000001" })
    get_points_balance := fun _ _ => Except.ok (some 100)
    get_available_gifts := fun _ => Except.ok demoGifts
    send_gift := fun _ _ _ _ _ _ => Except.ok true }

/-- The best affordable gift in `demoGifts` for a balance of 130. -/
def demoBadge : SteamGift :=
  { defid := 3, name := "Badge", cost := 120, description := "" }

/-- A concrete outcome list (one success, one failure) for witnesses. -/
def demoResults : List AccountResult :=
  [{ username := "a", success := true, points_balance := 100,
     gift_sent := some ("Sticker", 50), error := none },
   { username := "b", success := false, points_balance := 0,
     gift_sent := none, error := some "Ошибка авторизации" }]

/-! ## Helper lemmas for the code generator -/

theorem generate_code_eq_of_secret (s : String) (bytes : List Nat) (t : Nat)
    (h : secretToBytes s = some bytes) :
    generate_code s t = specReferenceCode bytes t := by
  unfold secretToBytes at h
  by_cases hs : s = ""
  · rw [if_pos hs] at h; exact absurd h (by simp)
  · rw [if_neg hs] at h
    unfold generate_code specReferenceCode
    rw [if_neg hs, h]

theorem emitChars_length (n v : Nat) : (emitChars n v).length = n := by
  induction n generalizing v with
  | zero => rfl
  | succ k ih => simp [emitChars, ih]

theorem steam_chars_getD_mem : ∀ i, i < 26 → steam_chars.data.getD i ' ' ∈ steam_chars.data := by
  decide

theorem emitChars_mem (n : Nat) : ∀ v c, c ∈ emitChars n v → c ∈ steam_chars.data := by
  induction n with
  | zero => intro v c hc; simp [emitChars] at hc
  | succ k ih =>
    intro v c hc
    rcases List.mem_cons.mp hc with h | h
    · rw [h]; exact steam_chars_getD_mem _ (Nat.mod_lt _ (by norm_num))
    · exact ih _ c h

/-! ## Base64 helper lemmas -/

theorem b64Table_lt (c : Nat) (h : (b64Table c).isSome) : c < 128 := by
  unfold b64Table at h
  split_ifs at h <;> first | omega | simp at h

/-- Running the decoder over a block of in-alphabet characters advances
the quad position by the block length (mod 4) and resets the pad count. -/
theorem a2b_dataRun :
    ∀ (ds rest : List Nat) (qp lc : Nat) (acc : List Nat), qp < 4 →
      (∀ c ∈ ds, (b64Table c).isSome) →
      ∃ lc2 acc2, a2b_base64 (ds ++ rest) qp lc 0 acc =
        a2b_base64 rest ((qp + ds.length) % 4) lc2 0 acc2 := by
  intro ds
  induction ds with
  | nil =>
    intro rest qp lc acc hqp _
    exact ⟨lc, acc, by simp [Nat.mod_eq_of_lt hqp]⟩
  | cons c ds ih =>
    intro rest qp lc acc hqp hall
    have hc : (b64Table c).isSome := hall c (by simp)
    obtain ⟨d, hd⟩ := Option.isSome_iff_exists.mp hc
    have hc61 : ¬ c = 61 := by intro h; rw [h] at hd; simp [b64Table] at hd
    have hstep : a2b_base64 (c :: ds ++ rest) qp lc 0 acc =
        if qp = 0 then a2b_base64 (ds ++ rest) 1 d 0 acc
        else if qp = 1 then a2b_base64 (ds ++ rest) 2 (d % 16) 0 ((lc * 4 + d / 16) :: acc)
        else if qp = 2 then a2b_base64 (ds ++ rest) 3 (d % 4) 0 ((lc * 16 + d / 4) :: acc)
        else a2b_base64 (ds ++ rest) 0 0 0 ((lc * 64 + d) :: acc) := by
      conv_lhs => rw [List.cons_append, a2b_base64]
      rw [if_neg hc61, hd]
    interval_cases qp
    · obtain ⟨lc2, acc2, hrun⟩ := ih rest 1 d acc (by omega) (fun x hx => hall x (by simp [hx]))
      refine ⟨lc2, acc2, ?_⟩
      rw [hstep, if_pos rfl, hrun]
      have : (1 + ds.length) % 4 = (0 + (ds.length + 1)) % 4 := by omega
      rw [this]
      simp [List.length_cons]
    · obtain ⟨lc2, acc2, hrun⟩ := ih rest 2 (d % 16) ((lc * 4 + d / 16) :: acc) (by omega)
        (fun x hx => hall x (by simp [hx]))
      refine ⟨lc2, acc2, ?_⟩
      rw [hstep, if_neg (by omega), if_pos rfl, hrun]
      have : (2 + ds.length) % 4 = (1 + (ds.length + 1)) % 4 := by omega
      rw [this]
      simp [List.length_cons]
    · obtain ⟨lc2, acc2, hrun⟩ := ih rest 3 (d % 4) ((lc * 16 + d / 4) :: acc) (by omega)
        (fun x hx => hall x (by simp [hx]))
      refine ⟨lc2, acc2, ?_⟩
      rw [hstep, if_neg (by omega), if_neg (by omega), if_pos rfl, hrun]
      have : (3 + ds.length) % 4 = (2 + (ds.length + 1)) % 4 := by omega
      rw [this]
      simp [List.length_cons]
    · obtain ⟨lc2, acc2, hrun⟩ := ih rest 0 0 ((lc * 64 + d) :: acc) (by omega)
        (fun x hx => hall x (by simp [hx]))
      refine ⟨lc2, acc2, ?_⟩
      rw [hstep, if_neg (by omega), if_neg (by omega), if_neg (by omega), hrun]
      have : (0 + ds.length) % 4 = (3 + (ds.length + 1)) % 4 := by omega
      rw [this]
      simp [List.length_cons]

/-- A block of in-alphabet characters of length 2 or 3 mod 4, padded
with `'='` to a multiple of 4, decodes successfully. -/
theorem b64decode_pad_isSome (cs : List Nat)
    (h : ∀ c ∈ cs, (b64Table c).isSome)
    (hm : cs.length % 4 = 2 ∨ cs.length % 4 = 3) :
    (b64decode (cs ++ List.replicate (4 - cs.length % 4) 61)).isSome := by
  have hascii : ((cs ++ List.replicate (4 - cs.length % 4) 61).all (fun c => c < 128)) = true := by
    rw [List.all_eq_true]
    intro c hc
    rcases List.mem_append.mp hc with h1 | h1
    · simpa using b64Table_lt c (h c h1)
    · have := List.eq_of_mem_replicate h1
      simp [this]
  unfold b64decode
  rw [if_pos hascii]
  obtain ⟨lc2, acc2, hrun⟩ :=
    a2b_dataRun cs (List.replicate (4 - cs.length % 4) 61) 0 0 [] (by omega) h
  rw [hrun, Nat.zero_add]
  rcases hm with hm | hm
  · rw [hm]
    show (a2b_base64 (61 :: 61 :: []) 2 lc2 0 acc2).isSome
    simp [a2b_base64]
  · rw [hm]
    show (a2b_base64 (61 :: []) 3 lc2 0 acc2).isSome
    simp [a2b_base64]

/-! ## Claims about the code generator -/

/-- C1: for every secret that decodes to raw bytes and every unix time
`t`, `generate_code` returns exactly the code of the reference
algorithm (window packed big-endian into 8 bytes, HMAC-SHA1,
`offset = digest[19] & 0x0F`, 4 bytes big-endian masked with
`0x7FFFFFFF`, 5 characters least-significant first over the
26-character alphabet). -/
theorem C1_generate_code_matches_reference :
    ∀ (s : String) (bytes : List Nat) (t : Nat),
      secretToBytes s = some bytes →
      generate_code s t = specReferenceCode bytes t :=
  fun s bytes t h => generate_code_eq_of_secret s bytes t h

theorem C1_witness :
    secretToBytes "abcd" = some [105, 183, 29] ∧
      generate_code "abcd" 0 = specReferenceCode [105, 183, 29] 0 :=
  ⟨by decide, C1_generate_code_matches_reference "abcd" [105, 183, 29] 0 (by decide)⟩

/-- C5: for a fixed decodable secret the generated code is identical
for all timestamps in the same 30-second window, is 5 characters long,
and consists only of characters of the fixed 26-character alphabet. -/
theorem C5_deterministic_same_window :
    ∀ (s : String) (bytes : List Nat) (t1 t2 : Nat),
      secretToBytes s = some bytes → t1 / 30 = t2 / 30 →
      generate_code s t1 = generate_code s t2 ∧
        (generate_code s t1).length = 5 ∧
        ∀ c ∈ (generate_code s t1).data, c ∈ steam_chars.data := by
  intro s bytes t1 t2 hsec hw
  rw [generate_code_eq_of_secret s bytes t1 hsec, generate_code_eq_of_secret s bytes t2 hsec]
  refine ⟨?_, ?_, ?_⟩
  · unfold specReferenceCode
    rw [hw]
  · show (String.mk (emitChars 5 _)).length = 5
    simp [String.length, emitChars_length]
  · intro c hc
    exact emitChars_mem 5 _ c hc

theorem C5_witness :
    secretToBytes "abcd" = some [105, 183, 29] ∧ 35 / 30 = 59 / 30 ∧
      generate_code "abcd" 35 = generate_code "abcd" 59 :=
  ⟨by decide, by decide,
    (C5_deterministic_same_window "abcd" [105, 183, 29] 35 59 (by decide) (by decide)).1⟩

/-- C7: `generate_code` signals failure by the empty string, exactly
when the secret is absent (empty) or its padded form fails base64
decoding; on any decodable secret it produces a (nonempty) code.  The
Lean model is a total function, matching "never raises to the
caller". -/
theorem C7_empty_iff_bad_secret :
    ∀ (s : String) (t : Nat), generate_code s t = "" ↔ secretToBytes s = none := by
  intro s t
  constructor
  · intro h
    cases hsec : secretToBytes s with
    | none => rfl
    | some bytes =>
      exfalso
      rw [generate_code_eq_of_secret s bytes t hsec] at h
      have hd : (specReferenceCode bytes t).data = ("" : String).data := by rw [h]
      have h5 : (specReferenceCode bytes t).data.length = 5 := emitChars_length 5 _
      rw [hd] at h5
      simp at h5
  · intro h
    unfold secretToBytes at h
    by_cases hs : s = ""
    · simp [generate_code, hs]
    · rw [if_neg hs] at h
      unfold generate_code
      rw [if_neg hs, h]

/-- C6 counterexample: the secret `"A"` has length 1 mod 4, yet
`generate_code` returns the empty error signal (the `'='`-padded string
`"A==="` is not valid base64: one data character is 1 more than a
multiple of 4), refuting the claim for padding shortfalls of 3. -/
theorem C6_counterexample :
    "A".length % 4 = 1 ∧ generate_code "A" 0 = "" := by
  constructor
  · decide
  · decide

/-- C6 (amended): for every secret over the base64 alphabet whose
length is 2 or 3 mod 4 (the shortfalls actually produced by stripping
`'='` padding), `generate_code` right-pads with `'='` and still
produces a 5-character code rather than the empty error signal. -/
theorem C6_amended_padding_normalization :
    ∀ (s : String) (t : Nat),
      (∀ c ∈ s.data, (b64Table c.toNat).isSome) →
      (s.data.length % 4 = 2 ∨ s.data.length % 4 = 3) →
      (generate_code s t).length = 5 := by
  intro s t hall hm
  have hs : ¬ s = "" := by
    intro h
    rw [h] at hm
    simp at hm
  have hcs : ∀ c ∈ s.data.map Char.toNat, (b64Table c).isSome := by
    intro c hc
    obtain ⟨ch, hch, rfl⟩ := List.mem_map.mp hc
    exact hall ch hch
  have hlen : (s.data.map Char.toNat).length = s.data.length := List.length_map _ _
  have hm' : (s.data.map Char.toNat).length % 4 = 2 ∨ (s.data.map Char.toNat).length % 4 = 3 := by
    rw [hlen]; exact hm
  have hps : padSecret s =
      s.data.map Char.toNat ++ List.replicate (4 - (s.data.map Char.toNat).length % 4) 61 := by
    unfold padSecret
    rw [if_neg (by omega)]
  have hdec : (b64decode (padSecret s)).isSome := by
    rw [hps]
    exact b64decode_pad_isSome (s.data.map Char.toNat) hcs hm'
  obtain ⟨bytes, hbytes⟩ := Option.isSome_iff_exists.mp hdec
  have hsec : secretToBytes s = some bytes := by
    unfold secretToBytes
    rw [if_neg hs, hbytes]
  rw [generate_code_eq_of_secret s bytes t hsec]
  show (String.mk (emitChars 5 _)).length = 5
  simp [String.length, emitChars_length]

theorem C6_witness :
    (∀ c ∈ "abcdef".data, (b64Table c.toNat).isSome) ∧
      ("abcdef".data.length % 4 = 2 ∨ "abcdef".data.length % 4 = 3) ∧
      (generate_code "abcdef" 0).length = 5 :=
  ⟨by decide, by decide,
    C6_amended_padding_normalization "abcdef" 0 (by decide) (by decide)⟩

/-! ## Claims about `find_best_gift` -/

theorem maxByCost_mem : ∀ (rest : List SteamGift) (best : SteamGift),
    maxByCost best rest ∈ best :: rest := by
  intro rest
  induction rest with
  | nil => intro best; simp [maxByCost]
  | cons g gs ih =>
    intro best
    have h := ih (if best.cost < g.cost then g else best)
    show maxByCost (if best.cost < g.cost then g else best) gs ∈ best :: g :: gs
    rcases List.mem_cons.mp h with h1 | h1
    · rw [h1]
      split
      · simp
      · simp
    · simp [h1]

theorem maxByCost_le : ∀ (rest : List SteamGift) (best : SteamGift) (x : SteamGift),
    x ∈ best :: rest → x.cost ≤ (maxByCost best rest).cost := by
  intro rest
  induction rest with
  | nil =>
    intro best x hx
    rcases List.mem_cons.mp hx with h | h
    · rw [h]; simp [maxByCost]
    · simp at h
  | cons g gs ih =>
    intro best x hx
    show x.cost ≤ (maxByCost (if best.cost < g.cost then g else best) gs).cost
    have hbest : best.cost ≤ (if best.cost < g.cost then g else best).cost := by
      split <;> omega
    have hg : g.cost ≤ (if best.cost < g.cost then g else best).cost := by
      split <;> omega
    have hhead := ih (if best.cost < g.cost then g else best)
      (if best.cost < g.cost then g else best) (List.mem_cons_self _ _)
    rcases List.mem_cons.mp hx with h | h
    · rw [h]; exact le_trans hbest hhead
    · rcases List.mem_cons.mp h with h1 | h1
      · rw [h1]; exact le_trans hg hhead
      · exact ih _ x (List.mem_cons_of_mem _ h1)

/-- C10: `find_best_gift` returns `None` exactly when no gift costs at
most the balance, and otherwise returns an affordable gift of maximal
cost from the list. -/
theorem C10_find_best_gift_spec :
    ∀ (b : Int) (gifts : List SteamGift),
      (find_best_gift b gifts = none ↔ ∀ g ∈ gifts, ¬ g.cost ≤ b) ∧
      (∀ g', find_best_gift b gifts = some g' →
        g' ∈ gifts ∧ g'.cost ≤ b ∧ ∀ g ∈ gifts, g.cost ≤ b → g.cost ≤ g'.cost) := by
  intro b gifts
  unfold find_best_gift
  by_cases hE : gifts.isEmpty
  · rw [if_pos hE]
    have : gifts = [] := List.isEmpty_iff.mp hE
    subst this
    constructor
    · simp
    · intro g' h
      simp at h
  · rw [if_neg hE]
    cases hF : gifts.filter (fun g => decide (g.cost ≤ b)) with
    | nil =>
      constructor
      · constructor
        · intro _ g hg hgb
          have : g ∈ gifts.filter (fun g => decide (g.cost ≤ b)) :=
            List.mem_filter.mpr ⟨hg, by simpa using hgb⟩
          rw [hF] at this
          simp at this
        · intro _
          rfl
      · intro g' h
        simp at h
    | cons a rest =>
      have hmem : ∀ x, x ∈ a :: rest → x ∈ gifts ∧ x.cost ≤ b := by
        intro x hx
        rw [← hF] at hx
        have := List.mem_filter.mp hx
        exact ⟨this.1, by simpa using this.2⟩
      constructor
      · constructor
        · intro h
          simp at h
        · intro h
          exfalso
          exact h a (hmem a (List.mem_cons_self _ _)).1 (hmem a (List.mem_cons_self _ _)).2
      · intro g' h
        have hg' : g' = maxByCost a rest := by
          simpa using h.symm
        subst hg'
        have hin := hmem _ (maxByCost_mem rest a)
        refine ⟨hin.1, hin.2, ?_⟩
        intro g hg hgb
        have : g ∈ a :: rest := by
          rw [← hF]
          exact List.mem_filter.mpr ⟨hg, by simpa using hgb⟩
        exact maxByCost_le rest a g this

theorem C10_witness :
    find_best_gift 130 demoGifts = some demoBadge ∧
      demoBadge ∈ demoGifts ∧ demoBadge.cost ≤ 130 := by
  have h := (C10_find_best_gift_spec 130 demoGifts).2 demoBadge (by decide)
  exact ⟨by decide, h.1, h.2.1⟩

/-! ## Claims about the result aggregator -/

/-- C4 counterexample: on the empty outcome list `print_stats` computes
the zero counts but does not compute a success rate at all (the source
guards the rate behind `if total > 0`), so the rate is not the claimed
0. -/
theorem C4_counterexample :
    (print_stats []).total = 0 ∧ (print_stats []).successful = 0 ∧
      (print_stats []).failed = 0 ∧ ¬ (print_stats []).success_rate = some 0 := by
  refine ⟨rfl, rfl, rfl, ?_⟩
  simp [print_stats]

/-- C4 (amended): for every outcome list with `N` entries and `K`
successes the aggregation produces `succeeded = K`, `failed = N - K`
and, when `N > 0`, success rate `100 * K / N`; for the empty list it
produces `total = 0`, `succeeded = 0`, `failed = 0` and no success rate
(the rate is simply not computed — in particular no division by
zero). -/
theorem C4_amended_aggregate :
    ∀ results : List AccountResult,
      (print_stats results).total = results.length ∧
      (print_stats results).successful = results.countP (fun r => r.success) ∧
      (print_stats results).failed = results.length - results.countP (fun r => r.success) ∧
      (0 < results.length →
        (print_stats results).success_rate =
          some (100 * (results.countP (fun r => r.success) : ℚ) / (results.length : ℚ))) ∧
      (results.length = 0 → (print_stats results).success_rate = none) := by
  intro results
  have hK : ((results.filter (fun r => r.success)).length : Nat) =
      results.countP (fun r => r.success) := (List.countP_eq_length_filter _ _).symm
  refine ⟨rfl, hK, by simp [print_stats, hK], ?_, ?_⟩
  · intro hN
    show (if 0 < results.length then _ else none) = _
    rw [if_pos hN, hK]
    congr 1
    rw [div_mul_eq_mul_div, mul_comm]
  · intro hN
    show (if 0 < results.length then _ else none) = none
    rw [if_neg (by omega)]

theorem C4_witness :
    (print_stats demoResults).successful = demoResults.countP (fun r => r.success) ∧
      (print_stats demoResults).success_rate =
        some (100 * (demoResults.countP (fun r => r.success) : ℚ) / (demoResults.length : ℚ)) :=
  ⟨(C4_amended_aggregate demoResults).2.1,
    (C4_amended_aggregate demoResults).2.2.2.1 (by decide)⟩

/-! ## Claims about parameter assignment -/

/-- C9 counterexample: with two avatars and three accounts, a run of
the random picker that draws index 1 gives the third account avatar
`"b.png"`, not the modulo-cycled `avatars[2 % 2] = "a.png"`; avatar
assignment beyond the available pool is random, not modulo cycling. -/
theorem C9_counterexample :
    (["a.png", "b.png"] : List String).length < 3 ∧
      ¬ (get_unique_avatars (fun _ => 1) (fun l n => l.take n) ["a.png", "b.png"] 3).getD 2 "" =
          ["a.png", "b.png"].getD (2 % 2) "" := by
  constructor
  · decide
  · decide

/-- C9 (amended): profile parameter sets do cycle with modulo indexing
(the `i`-th account receives index `i % M` into each nonempty list, and
`""` from an empty list); avatars do not cycle: the first `M` accounts
receive the `M` avatars in order and every further account receives a
random pick. -/
theorem C9_amended_assignment :
    ∀ (profile_names real_names about_me_texts : List String) (count i : Nat),
      i < count →
      ((get_unique_profile_data profile_names real_names about_me_texts count).getD i default =
        { profile_name :=
            if profile_names.isEmpty then ""
            else profile_names.getD (i % profile_names.length) ""
          real_name :=
            if real_names.isEmpty then "" else real_names.getD (i % real_names.length) ""
          about_me :=
            if about_me_texts.isEmpty then ""
            else about_me_texts.getD (i % about_me_texts.length) "" }) ∧
      ∀ (choice : Nat → Nat) (sample : List String → Nat → List String)
        (avatars : List String), avatars.length < count →
          (i < avatars.length →
            (get_unique_avatars choice sample avatars count).getD i "" = avatars.getD i "") ∧
          (avatars.length ≤ i →
            (get_unique_avatars choice sample avatars count).getD i "" =
              get_random_avatar avatars (choice (i - avatars.length))) := by
  intro profile_names real_names about_me_texts count i hi
  constructor
  · unfold get_unique_profile_data
    rw [List.getD_eq_getElem _ _ (by simpa using hi)]
    simp [List.getElem_map, List.getElem_range]
  · intro choice sample avatars hcnt
    unfold get_unique_avatars
    rw [if_pos hcnt]
    constructor
    · intro hiav
      rw [List.getD_append _ _ _ _ hiav]
    · intro hiav
      rw [List.getD_append_right _ _ _ _ hiav]
      have hrange : i - avatars.length < count - avatars.length := by omega
      have hlen2 : i - avatars.length <
          (((List.range (count - avatars.length)).map
            (fun j => get_random_avatar avatars (choice j)))).length := by
        simpa using hrange
      rw [List.getD_eq_getElem _ _ hlen2, List.getElem_map]
      simp

theorem C9_witness :
    (get_unique_profile_data ["X", "Y"] ["R"] ["A", "B", "C"] 3).getD 2 default =
        { profile_name := ["X", "Y"].getD (2 % 2) "", real_name := ["R"].getD (2 % 1) "",
          about_me := ["A", "B", "C"].getD (2 % 3) "" } ∧
      (get_unique_avatars (fun _ => 1) (fun l n => l.take n) ["a.png", "b.png"] 3).getD 2 "" =
        get_random_avatar ["a.png", "b.png"] 1 := by
  have h := C9_amended_assignment ["X", "Y"] ["R"] ["A", "B", "C"] 3 2 (by decide)
  have h2 := C9_amended_assignment ["X", "Y"] ["R"] ["A", "B", "C"] 3 2 (by decide)
  refine ⟨?_, ?_⟩
  · rw [h.1]
    decide
  · have := (h2.2 (fun _ => 1) (fun l n => l.take n) ["a.png", "b.png"] (by decide)).2 (by decide)
    rw [this]

/-! ## Helper lemmas for `process_account` -/

theorem process_account_body_ok_username
    (ops : SteamOps) (u p s rcpt : String) (res r : AccountResult)
    (h : process_account_body ops u p s rcpt res = Except.ok r) :
    r.username = res.username := by
  simp only [process_account_body] at h
  repeat' split at h
  all_goals simp_all
  all_goals rw [← h]

theorem process_account_body_error_state
    (ops : SteamOps) (u p s rcpt : String) (res r : AccountResult) (e : String)
    (h : process_account_body ops u p s rcpt res = Except.error (r, e)) :
    r.username = res.username ∧ r.success = res.success := by
  simp only [process_account_body] at h
  repeat' split at h
  all_goals simp_all
  all_goals rw [← h.1]
  all_goals exact ⟨rfl, rfl⟩

theorem process_account_username (ops : SteamOps) (u p s rcpt : String) :
    (process_account ops u p s rcpt).username = u := by
  unfold process_account
  cases h : process_account_body ops u p s rcpt (initialResult u) with
  | ok r =>
    simpa [initialResult] using process_account_body_ok_username ops u p s rcpt _ r h
  | error pr =>
    obtain ⟨r, e⟩ := pr
    have hst := process_account_body_error_state ops u p s rcpt _ r e h
    simpa [initialResult] using hst.1

/-! ## Claims about the orchestrator -/

/-- C2 counterexample: with oracles whose login fails (returns `None`)
on the first two attempt indices and would succeed from the third, the
account outcome is a failure — the orchestrator performs a single login
call and never retries, refuting the claimed retry bound of 3. -/
theorem C2_counterexample :
    retryProbeOps.login 2 "user" "pw" "sec" =
        Except.ok (some { steamid := some "76561198000000001" }) ∧
      (process_account retryProbeOps "user" "pw" "sec" "rcpt").success = false ∧
      (process_account retryProbeOps "user" "pw" "sec" "rcpt").error =
        some "Ошибка авторизации" := by
  refine ⟨rfl, rfl, rfl⟩

/-- C2 (amended): the orchestrator performs zero retries for every kind
of login failure: the outcome of processing an account depends only on
the index-0 (first-call) responses of the collaborators, and a login
that returns no auth data yields exactly one failed outcome with the
authorization-error reason. -/
theorem C2_amended_no_retries :
    ∀ (ops ops' : SteamOps) (u p s rcpt : String),
      ops.login 0 = ops'.login 0 →
      ops.get_points_balance = ops'.get_points_balance →
      ops.get_available_gifts = ops'.get_available_gifts →
      ops.send_gift = ops'.send_gift →
      process_account ops u p s rcpt = process_account ops' u p s rcpt ∧
      (ops.login 0 u p s = Except.ok none →
        process_account ops u p s rcpt =
          { initialResult u with error := some "Ошибка авторизации" }) := by
  intro ops ops' u p s rcpt h1 h2 h3 h4
  constructor
  · unfold process_account process_account_body
    rw [h1, h2, h3, h4]
  · intro hfail
    unfold process_account process_account_body
    rw [hfail]

theorem C2_witness :
    process_account retryProbeOps "u" "p" "s" "r" =
        process_account alwaysFailLoginOps "u" "p" "s" "r" ∧
      process_account retryProbeOps "u" "p" "s" "r" =
        { initialResult "u" with error := some "Ошибка авторизации" } := by
  have h := C2_amended_no_retries retryProbeOps alwaysFailLoginOps "u" "p" "s" "r"
    (by funext a b c; rfl) rfl rfl rfl
  exact ⟨h.1, h.2 rfl⟩

/-- C3: the batch records exactly one outcome per credential (an
exception inside one account's processing is caught at the per-account
boundary and converted into a failed outcome with reason
`Исключение: ...`, never aborting the batch), and the final summary is
computed over all collected outcomes. -/
theorem C3_per_account_boundary :
    ∀ (ops : SteamOps) (accounts : List (String × String × String)) (rcpt : String),
      (process_accounts_batch ops accounts rcpt).length = accounts.length ∧
      (print_stats (process_accounts_batch ops accounts rcpt)).total = accounts.length ∧
      ∀ (u p s : String) (r : AccountResult) (e : String),
        process_account_body ops u p s rcpt (initialResult u) = Except.error (r, e) →
          process_account ops u p s rcpt = { r with error := some ("Исключение: " ++ e) } ∧
          (process_account ops u p s rcpt).success = false := by
  intro ops accounts rcpt
  refine ⟨List.length_map _ _, List.length_map _ _, ?_⟩
  intro u p s r e h
  have hst := process_account_body_error_state ops u p s rcpt _ r e h
  constructor
  · unfold process_account
    rw [h]
  · unfold process_account
    rw [h]
    simpa [initialResult] using hst.2

theorem C3_witness :
    (process_accounts_batch throwingLoginOps [("u", "p", "s")] "r").length = 1 ∧
      (process_account throwingLoginOps "u" "p" "s" "r").success = false := by
  have h := C3_per_account_boundary throwingLoginOps [("u", "p", "s")] "r"
  exact ⟨h.1, (h.2.2 "u" "p" "s" (initialResult "u") "boom" rfl).2⟩

/-- C8: the `i`-th outcome of the batch belongs to the `i`-th input
credential tuple (`asyncio.gather` keeps task order, and the
sequential reading of the same map preserves input order). -/
theorem C8_batch_preserves_order :
    ∀ (ops : SteamOps) (accounts : List (String × String × String)) (rcpt : String) (i : Nat),
      i < accounts.length →
      ((process_accounts_batch ops accounts rcpt).getD i (initialResult "")).username =
        (accounts.getD i ("", "", "")).1 := by
  intro ops accounts rcpt i hi
  unfold process_accounts_batch
  rw [List.getD_eq_getElem _ _ (by simpa using hi), List.getElem_map,
    List.getD_eq_getElem _ _ hi]
  exact process_account_username ops _ _ _ rcpt

theorem C8_witness :
    (0 : Nat) < ([("u1", "p1", "s1")] : List (String × String × String)).length ∧
      ((process_accounts_batch happyOps [("u1", "p1", "s1")] "r").getD 0
          (initialResult "")).username =
        ([("u1", "p1", "s1")].getD 0 ("", "", "")).1 :=
  ⟨by decide, C8_batch_preserves_order happyOps [("u1", "p1", "s1")] "r" 0 (by decide)⟩
